import Mathlib

/-!
Verification of the zfs_exporter pool/topology code (src/zfs/pool.go).

The parser parsePoolDisksFromLines is embedded as a Lean function over
lists of lines (Lean String, valid UTF-8), with faithful models of the Go
helpers it uses: strings.Fields (split on Unicode whitespace),
strings.TrimLeft with a cutset of one space (leading-space count),
strings.Contains (substring test) and strconv.Atoi (optional sign, base-10
digits, 64-bit range). The Go loop appends records to a slice and may
break out of the loop or return an error; the embedding is a structural
recursion that conses records in the same order, returns none for the
error case and stops early for break. Machine integers are modelled as
Int with the explicit two-to-the-63 range check of strconv.Atoi.

The pool-disk collector update (publication of disk metrics) is embedded
over the record list it receives; metric values are float64 in Go but
every published value is an exact small integer (1.0 or a converted
error counter), so values are carried as Int.
-/

/-- Character class of Go unicode.IsSpace: the White_Space property. -/
def goIsSpace (c : Char) : Bool :=
  c = ' ' || c = '\t' || c = '\n' || c.toNat = 11 || c.toNat = 12 || c = '\r' ||
  c.toNat = 0x85 || c.toNat = 0xA0 || c.toNat = 0x1680 ||
  (0x2000 ≤ c.toNat && c.toNat ≤ 0x200A) ||
  c.toNat = 0x2028 || c.toNat = 0x2029 || c.toNat = 0x202F ||
  c.toNat = 0x205F || c.toNat = 0x3000

/-- Accumulator pass of strings.Fields: acc holds the current word reversed. -/
def fieldsAux : List Char → List Char → List (List Char)
  | [], acc => if acc = [] then [] else [acc.reverse]
  | c :: cs, acc =>
    if goIsSpace c then
      if acc = [] then fieldsAux cs [] else acc.reverse :: fieldsAux cs []
    else
      fieldsAux cs (c :: acc)

/-- Model of Go strings.Fields: the maximal runs of non-whitespace characters. -/
def goFields (s : String) : List String :=
  (fieldsAux s.toList []).map (fun cs => String.mk cs)

/-- Model of len(line) - len(strings.TrimLeft(line, " ")): the number of
leading space characters (every non-space byte survives TrimLeft, and a
space is one byte). -/
def leadingSpaces (s : String) : Nat :=
  (s.toList.takeWhile (fun c => c = ' ')).length

/-- Prefix test on character lists, used by the substring test. -/
def isPrefixList : List Char → List Char → Bool
  | [], _ => true
  | _ :: _, [] => false
  | a :: as, b :: bs => a = b && isPrefixList as bs

/-- Substring occurrence: pat occurs at the start of some suffix of s. -/
def listContainsAux : List Char → List Char → Bool
  | [], pat => pat.isEmpty
  | c :: cs, pat => isPrefixList pat (c :: cs) || listContainsAux cs pat

/-- Model of Go strings.Contains for valid UTF-8: the byte-substring test of
Go agrees with the character-substring test when the needle is ASCII. -/
def strContains (s pat : String) : Bool :=
  listContainsAux s.toList pat.toList

/-- Header test of parsePoolDisksFromLines: the line contains the three
markers NAME, STATE and CKSUM (pool.go line 158). -/
def containsNSC (line : String) : Bool :=
  strContains line "NAME" && strContains line "STATE" && strContains line "CKSUM"

/-- Model of Go strconv.Atoi: optional single sign, then one or more base-10
digits, with the 64-bit signed range check; none for every malformed or
out-of-range input (the Go code treats any Atoi error as a parse error). -/
def goAtoi (s : String) : Option Int :=
  match s.toList with
  | [] => none
  | c :: cs =>
    let ds : List Char := if c = '+' then cs else if c = '-' then cs else c :: cs
    let neg : Bool := c = '-'
    if ds = [] then none
    else if ds.all (fun d => d.isDigit) then
      let n : Nat := ds.foldl (fun a d => a * 10 + (d.toNat - 48)) 0
      let v : Int := if neg then -(n : Int) else (n : Int)
      if v < -(2 ^ 63) ∨ (2 ^ 63 - 1 : Int) < v then none else some v
    else none

/-- The zfs.PoolDisk record, fields as used by pool.go (Go zero values:
empty strings and zero counters for the fields a literal leaves out). -/
structure PoolDisk where
  Zpool : String
  Vdev : String
  Name : String
  Kind : String
  State : String
  ReadErrors : Int
  WriteErrors : Int
  ChecksumErrors : Int
deriving DecidableEq, Repr

/-- What one iteration of the parse loop does once inside the topology
block: stop (Go break), skip to the next line with updated context, emit a
record with updated context, or fail (Go returns nil and the Atoi error). -/
inductive LineAction where
  | stop : LineAction
  | skip : String → String → LineAction
  | emit : PoolDisk → String → String → LineAction
  | failLine : LineAction
deriving DecidableEq, Repr

/-- The body of the parse loop of parsePoolDisksFromLines (pool.go lines
163-243) for one line, inside the topology block: classify the line by its
padding relative to minPadding and by its field count, exactly as the Go
if/else chain does. -/
def lineStep (minPad : Nat) (zpool vdev : String) (line : String) : LineAction :=
  if minPad ≤ leadingSpaces line then
    if leadingSpaces line - minPad = 0 then
      match goFields line with
      | [] => .skip zpool vdev
      | f0 :: _ => .skip f0 vdev
    else if leadingSpaces line - minPad = 2 then
      if zpool = "spares" then
        match goFields line with
        | [f0, f1] => .emit ⟨"spares", "", f0, "spare", f1, 0, 0, 0⟩ zpool vdev
        | _ => .skip zpool vdev
      else
        match goFields line with
        | [f0, f1, f2, f3, f4] =>
          match goAtoi f2, goAtoi f3, goAtoi f4 with
          | some re, some we, some ce => .emit ⟨zpool, f0, f0, "vdev", f1, re, we, ce⟩ zpool f0
          | _, _, _ => .failLine
        | _ => .skip zpool vdev
    else if 4 ≤ leadingSpaces line - minPad then
      match goFields line with
      | [f0, f1, f2, f3, f4] =>
        match goAtoi f2, goAtoi f3, goAtoi f4 with
        | some re, some we, some ce => .emit ⟨zpool, vdev, f0, "disk", f1, re, we, ce⟩ zpool vdev
        | _, _, _ => .failLine
      | _ => .skip zpool vdev
    else
      .skip zpool vdev
  else
    .stop

/-- The parse loop after the header was detected: emitted records in source
order; none models the Go (nil, err) return; stop cuts the rest off just as
the Go break does. -/
def parseInside : List String → Nat → String → String → Option (List PoolDisk)
  | [], _, _, _ => some []
  | line :: rest, minPad, zpool, vdev =>
    match lineStep minPad zpool vdev line with
    | .stop => some []
    | .skip z v => parseInside rest minPad z v
    | .emit d z v => (parseInside rest minPad z v).map (fun t => d :: t)
    | .failLine => none

/-- The phase before the header: lines are scanned until one contains the
three markers; its leading-space count becomes minPadding, and currentZpool
and currentVdev are still their initial empty strings. -/
def parseSeek : List String → Option (List PoolDisk)
  | [] => some []
  | line :: rest =>
    if containsNSC line then parseInside rest (leadingSpaces line) "" ""
    else parseSeek rest

/-- parsePoolDisksFromLines (pool.go lines 149-247): some records on
success (possibly the empty list), none when strconv.Atoi failed on a
numeric field of a processed five-field row. -/
def parsePoolDisksFromLines (lines : List String) : Option (List PoolDisk) :=
  parseSeek lines

/-- The input of TestZFSCommandLineParse (src/zfs/pool.go), split on
newlines exactly as Go strings.Split does (so the last element is empty). -/
def sampleLines : List String := [
  "pool: ssd_tank",
  " state: ONLINE",
  "  scan: scrub repaired 0B in 02:44:52 with 0 errors on Sun Aug 14 03:08:54 2022",
  "config:",
  "",
  "        NAME        STATE     READ WRITE CKSUM",
  "        ssd_tank    ONLINE       0    13    26",
  "          mirror-0  ONLINE       1    14    27",
  "            sdc     ONLINE       2    15    28",
  "            sda     ONLINE       3    16    29",
  "          mirror-1  ONLINE       4    17    30",
  "            sdh     ONLINE       5    18    31",
  "            sdd     ONLINE       6    19    32",
  "          mirror-2  ONLINE       7    20    33",
  "            sde     ONLINE       8    21    34",
  "            sdf     ONLINE       9    22    35",
  "          mirror-3  ONLINE      10    23    36",
  "            sdg     ONLINE      11    24    37",
  "            sdi     ONLINE      12    25    38",
  "        spares",
  "          sdj       AVAIL",
  "",
  "errors: No known data errors",
  ""]

/-- The thirteen records the repository test expects for sampleLines,
transcribed from expectedOutput of TestZFSCommandLineParse. -/
def sampleExpected : List PoolDisk := [
  ⟨"ssd_tank", "mirror-0", "mirror-0", "vdev", "ONLINE", 1, 14, 27⟩,
  ⟨"ssd_tank", "mirror-0", "sdc", "disk", "ONLINE", 2, 15, 28⟩,
  ⟨"ssd_tank", "mirror-0", "sda", "disk", "ONLINE", 3, 16, 29⟩,
  ⟨"ssd_tank", "mirror-1", "mirror-1", "vdev", "ONLINE", 4, 17, 30⟩,
  ⟨"ssd_tank", "mirror-1", "sdh", "disk", "ONLINE", 5, 18, 31⟩,
  ⟨"ssd_tank", "mirror-1", "sdd", "disk", "ONLINE", 6, 19, 32⟩,
  ⟨"ssd_tank", "mirror-2", "mirror-2", "vdev", "ONLINE", 7, 20, 33⟩,
  ⟨"ssd_tank", "mirror-2", "sde", "disk", "ONLINE", 8, 21, 34⟩,
  ⟨"ssd_tank", "mirror-2", "sdf", "disk", "ONLINE", 9, 22, 35⟩,
  ⟨"ssd_tank", "mirror-3", "mirror-3", "vdev", "ONLINE", 10, 23, 36⟩,
  ⟨"ssd_tank", "mirror-3", "sdg", "disk", "ONLINE", 11, 24, 37⟩,
  ⟨"ssd_tank", "mirror-3", "sdi", "disk", "ONLINE", 12, 25, 38⟩,
  ⟨"spares", "", "sdj", "spare", "AVAIL", 0, 0, 0⟩]


/-- The label values the disk collector attaches to every metric of a
record: zpool, vdev, state, kind, disk name (pool.go line 662). -/
def labelValues (d : PoolDisk) : List String :=
  [d.Zpool, d.Vdev, d.State, d.Kind, d.Name]

/-- One metric sent to the channel: its name, its label values and its
value. Go publishes float64 values, but every value published here is the
exact image of an integer (the constant 1.0 or float64 of an int), so the
value is carried as that integer. -/
structure Metric where
  name : String
  labels : List String
  value : Int
deriving DecidableEq, Repr

/-- The metrics the body of the loop of poolDiskCollector.update (pool.go
lines 661-701) sends for one record: one status metric of value 1, and for
records whose Kind is not spare, the three error-counter metrics. -/
def metricsForDisk (d : PoolDisk) : List Metric :=
  ⟨"zfs_disk_status", labelValues d, 1⟩ ::
  (if d.Kind ≠ "spare" then
    [⟨"zfs_disk_read_error", labelValues d, d.ReadErrors⟩,
     ⟨"zfs_disk_write_error", labelValues d, d.WriteErrors⟩,
     ⟨"zfs_disk_checksum_error", labelValues d, d.ChecksumErrors⟩]
   else [])

/-- poolDiskCollector.update on the record list the topology source
returned: the loop over disks, publications in order. -/
def poolDiskCollectorUpdate : List PoolDisk → List Metric
  | [] => []
  | d :: rest => metricsForDisk d ++ poolDiskCollectorUpdate rest

/-- Observable outcome of the property loop of updatePoolMetrics: the keys
warned about (in order) and the key/value pairs published (in order). -/
structure ScrapeState where
  warnings : List String
  published : List (String × String)
deriving DecidableEq, Repr

/-- Modelled from the spec: propertyStore.find and property.push are not in
src/ (only their caller updatePoolMetrics, pool.go lines 584-603, is).
Spec 4.2 and 7: find fails with UnsupportedProperty exactly when the key is
not registered, and an unsupported key is logged as a warning and skipped,
not published and not fatal to the cycle; a transform failure on a
registered key is surfaced as the worker error (the caller returns it,
halting that pool). reg is the registered-key test of the property store
and transform the transform of a registered key (none = transform failure);
the loop walks the fetched property rows in order. -/
def updatePoolMetrics (reg : String → Bool) (transform : String → String → Option Int) :
    List (String × String) → ScrapeState → Option ScrapeState
  | [], st => some st
  | (k, v) :: rest, st =>
    if reg k then
      match transform k v with
      | some _ => updatePoolMetrics reg transform rest ⟨st.warnings, st.published ++ [(k, v)]⟩
      | none => none
    else
      updatePoolMetrics reg transform rest ⟨st.warnings ++ [k], st.published⟩

/-- Link check for the output of the parser: walking the records in order
with the vdev names seen so far, every disk record points at an already
seen vdev name or carries the empty vdev left from the initial context. -/
def disksLinked : List PoolDisk → List String → Bool
  | [], _ => true
  | r :: rest, seen =>
    (if r.Kind = "disk" then decide (r.Vdev = "" ∨ r.Vdev ∈ seen) else true) &&
    disksLinked rest (if r.Kind = "vdev" then r.Name :: seen else seen)

/-- Every word strings.Fields produces is a nonempty run of characters. -/
theorem fieldsAux_mem_ne_nil : ∀ cs acc w, w ∈ fieldsAux cs acc → w ≠ [] := by
  intro cs
  induction cs with
  | nil =>
    intro acc w hw
    unfold fieldsAux at hw
    split at hw
    · simp at hw
    · rename_i hacc
      simp at hw
      subst hw
      simpa using hacc
  | cons c cs ih =>
    intro acc w hw
    unfold fieldsAux at hw
    split at hw
    · split at hw
      · exact ih [] w hw
      · rename_i hacc
        rcases List.mem_cons.mp hw with h | h
        · subst h; simpa using hacc
        · exact ih [] w h
    · exact ih (c :: acc) w hw

/-- Every field strings.Fields produces is a nonempty string. -/
theorem goFields_mem_ne_empty : ∀ s f, f ∈ goFields s → f ≠ "" := by
  intro s f hf h
  unfold goFields at hf
  rcases List.mem_map.mp hf with ⟨w, hw, hfw⟩
  exact fieldsAux_mem_ne_nil _ _ _ hw (show w = [] from congrArg String.data (hfw.trans h))

/-- Shape of every record the loop body emits: a spare record with the
literal pool spares and zero counters leaving the context alone, a vdev
record of the current pool that renames the current vdev to its own name,
or a disk record of the current pool and current vdev. -/
theorem lineStep_emit_shape {minPad : Nat} {zpool vdev line : String} {d : PoolDisk}
    {z v : String} (h : lineStep minPad zpool vdev line = .emit d z v) :
    (d.Kind = "spare" ∧ d.Zpool = "spares" ∧ d.ReadErrors = 0 ∧ d.WriteErrors = 0 ∧
      d.ChecksumErrors = 0 ∧ z = zpool ∧ v = vdev) ∨
    (d.Kind = "vdev" ∧ d.Zpool = zpool ∧ d.Vdev = d.Name ∧ z = zpool ∧ v = d.Name) ∨
    (d.Kind = "disk" ∧ d.Zpool = zpool ∧ d.Vdev = vdev ∧ z = zpool ∧ v = vdev) := by
  unfold lineStep at h
  split at h
  · split at h
    · split at h
      · exact LineAction.noConfusion h
      · exact LineAction.noConfusion h
    · split at h
      · split at h
        · split at h
          · injection h with h1 h2 h3
            subst h1; subst h2; subst h3
            exact Or.inl ⟨rfl, rfl, rfl, rfl, rfl, rfl, rfl⟩
          · exact LineAction.noConfusion h
        · split at h
          · split at h
            · injection h with h1 h2 h3
              subst h1; subst h2; subst h3
              exact Or.inr (Or.inl ⟨rfl, rfl, rfl, rfl, rfl⟩)
            · exact LineAction.noConfusion h
          · exact LineAction.noConfusion h
      · split at h
        · split at h
          · split at h
            · injection h with h1 h2 h3
              subst h1; subst h2; subst h3
              exact Or.inr (Or.inr ⟨rfl, rfl, rfl, rfl, rfl⟩)
            · exact LineAction.noConfusion h
          · exact LineAction.noConfusion h
        · exact LineAction.noConfusion h
  · exact LineAction.noConfusion h

/-- Shape of every context update a skipped line makes: the vdev context is
untouched, and the pool context either stays or becomes a field of the
line, which is nonempty. -/
theorem lineStep_skip_shape {minPad : Nat} {zpool vdev line : String} {z v : String}
    (h : lineStep minPad zpool vdev line = .skip z v) :
    v = vdev ∧ (z = zpool ∨ z ≠ "") := by
  unfold lineStep at h
  split at h
  · split at h
    · split at h
      · injection h with h1 h2
        exact ⟨h2.symm, Or.inl h1.symm⟩
      · rename_i f0 t heq
        injection h with h1 h2
        subst h1
        exact ⟨h2.symm, Or.inr (goFields_mem_ne_empty line f0 (heq ▸ List.mem_cons_self f0 t))⟩
    · split at h
      · split at h
        · split at h
          · exact LineAction.noConfusion h
          · injection h with h1 h2
            exact ⟨h2.symm, Or.inl h1.symm⟩
        · split at h
          · split at h
            · exact LineAction.noConfusion h
            · exact LineAction.noConfusion h
          · injection h with h1 h2
            exact ⟨h2.symm, Or.inl h1.symm⟩
      · split at h
        · split at h
          · split at h
            · exact LineAction.noConfusion h
            · exact LineAction.noConfusion h
          · injection h with h1 h2
            exact ⟨h2.symm, Or.inl h1.symm⟩
        · injection h with h1 h2
          exact ⟨h2.symm, Or.inl h1.symm⟩
  · exact LineAction.noConfusion h

/-- Spare invariant of the inside loop: every emitted record of kind spare
carries the literal pool spares and zero error counters. -/
theorem parseInside_spare : ∀ (lines : List String) (minPad : Nat) (zpool vdev : String)
    (res : List PoolDisk), parseInside lines minPad zpool vdev = some res →
    ∀ r ∈ res, r.Kind = "spare" →
      r.Zpool = "spares" ∧ r.ReadErrors = 0 ∧ r.WriteErrors = 0 ∧ r.ChecksumErrors = 0 := by
  intro lines
  induction lines with
  | nil =>
    intro minPad zpool vdev res h r hr
    simp [parseInside] at h
    subst h
    simp at hr
  | cons line rest ih =>
    intro minPad zpool vdev res h r hr hk
    unfold parseInside at h
    cases hstep : lineStep minPad zpool vdev line with
    | stop =>
      rw [hstep] at h
      simp at h
      subst h
      simp at hr
    | skip z v =>
      rw [hstep] at h
      exact ih minPad z v res h r hr hk
    | emit d z v =>
      rw [hstep] at h
      rcases Option.map_eq_some'.mp h with ⟨t, ht, hres⟩
      subst hres
      rcases List.mem_cons.mp hr with h1 | h1
      · subst h1
        rcases lineStep_emit_shape hstep with hs | hs | hs
        · exact ⟨hs.2.1, hs.2.2.1, hs.2.2.2.1, hs.2.2.2.2.1⟩
        · rw [hs.1] at hk
          exact absurd hk (by decide)
        · rw [hs.1] at hk
          exact absurd hk (by decide)
      · exact ih minPad z v t ht r h1 hk
    | failLine =>
      rw [hstep] at h
      simp at h

/-- Pool-context invariant of the inside loop: once the pool context is a
nonempty string, every emitted record carries a nonempty pool name. -/
theorem parseInside_zpool : ∀ (lines : List String) (minPad : Nat) (zpool vdev : String)
    (res : List PoolDisk), parseInside lines minPad zpool vdev = some res → zpool ≠ "" →
    ∀ r ∈ res, r.Zpool ≠ "" := by
  intro lines
  induction lines with
  | nil =>
    intro minPad zpool vdev res h hz r hr
    simp [parseInside] at h
    subst h
    simp at hr
  | cons line rest ih =>
    intro minPad zpool vdev res h hz r hr
    unfold parseInside at h
    cases hstep : lineStep minPad zpool vdev line with
    | stop =>
      rw [hstep] at h
      simp at h
      subst h
      simp at hr
    | skip z v =>
      rw [hstep] at h
      rcases lineStep_skip_shape hstep with ⟨-, hzz⟩
      rcases hzz with hzz | hzz
      · exact ih minPad z v res h (hzz ▸ hz) r hr
      · exact ih minPad z v res h hzz r hr
    | emit d z v =>
      rw [hstep] at h
      rcases Option.map_eq_some'.mp h with ⟨t, ht, hres⟩
      subst hres
      rcases List.mem_cons.mp hr with h1 | h1
      · subst h1
        rcases lineStep_emit_shape hstep with hs | hs | hs
        · rw [hs.2.1]; decide
        · rw [hs.2.1]; exact hz
        · rw [hs.2.1]; exact hz
      · rcases lineStep_emit_shape hstep with hs | hs | hs
        · exact ih minPad z v t ht (hs.2.2.2.2.2.1 ▸ hz) r h1
        · exact ih minPad z v t ht (hs.2.2.2.1 ▸ hz) r h1
        · exact ih minPad z v t ht (hs.2.2.2.1 ▸ hz) r h1
    | failLine =>
      rw [hstep] at h
      simp at h

/-- Link invariant of the inside loop: relative to the vdev names already
seen, every disk record emitted later points at a seen vdev name or at the
empty vdev of the initial context, provided the current vdev context does. -/
theorem parseInside_linked : ∀ (lines : List String) (minPad : Nat) (zpool vdev : String)
    (seen : List String) (res : List PoolDisk),
    parseInside lines minPad zpool vdev = some res → (vdev = "" ∨ vdev ∈ seen) →
    disksLinked res seen = true := by
  intro lines
  induction lines with
  | nil =>
    intro minPad zpool vdev seen res h hv
    simp [parseInside] at h
    subst h
    rfl
  | cons line rest ih =>
    intro minPad zpool vdev seen res h hv
    unfold parseInside at h
    cases hstep : lineStep minPad zpool vdev line with
    | stop =>
      rw [hstep] at h
      simp at h
      subst h
      rfl
    | skip z v =>
      rw [hstep] at h
      rcases lineStep_skip_shape hstep with ⟨hvv, -⟩
      exact ih minPad z v seen res h (hvv ▸ hv)
    | emit d z v =>
      rw [hstep] at h
      rcases Option.map_eq_some'.mp h with ⟨t, ht, hres⟩
      subst hres
      rcases lineStep_emit_shape hstep with hs | hs | hs
      · have hk := hs.1
        have hvv : v = vdev := hs.2.2.2.2.2.2
        simp [disksLinked, hk]
        exact ih minPad z v seen t ht (hvv ▸ hv)
      · have hk := hs.1
        have hvv : v = d.Name := hs.2.2.2.2
        simp [disksLinked, hk]
        exact ih minPad z v (d.Name :: seen) t ht
          (by rw [hvv]; exact Or.inr (List.mem_cons_self d.Name seen))
      · have hk := hs.1
        have hvd : d.Vdev = vdev := hs.2.2.1
        have hvv : v = vdev := hs.2.2.2.2
        simp [disksLinked, hk]
        exact ⟨hvd ▸ hv, ih minPad z v seen t ht (hvv ▸ hv)⟩
    | failLine =>
      rw [hstep] at h
      simp at h

/-- Spare invariant carried over the seek phase. -/
theorem parseSeek_spare : ∀ (lines : List String) (res : List PoolDisk),
    parseSeek lines = some res → ∀ r ∈ res, r.Kind = "spare" →
      r.Zpool = "spares" ∧ r.ReadErrors = 0 ∧ r.WriteErrors = 0 ∧ r.ChecksumErrors = 0 := by
  intro lines
  induction lines with
  | nil =>
    intro res h r hr
    simp [parseSeek] at h
    subst h
    simp at hr
  | cons line rest ih =>
    intro res h
    unfold parseSeek at h
    split at h
    · exact parseInside_spare rest (leadingSpaces line) "" "" res h
    · exact ih res h

/-- Link invariant carried over the seek phase: the vdev context is still
the empty string when the header is found. -/
theorem parseSeek_linked : ∀ (lines : List String) (res : List PoolDisk),
    parseSeek lines = some res → disksLinked res [] = true := by
  intro lines
  induction lines with
  | nil =>
    intro res h
    simp [parseSeek] at h
    subst h
    rfl
  | cons line rest ih =>
    intro res h
    unfold parseSeek at h
    split at h
    · exact parseInside_linked rest (leadingSpaces line) "" "" [] res h (Or.inl rfl)
    · exact ih res h

/-- Claim C2 (amended): when the parser, inside the topology block (so
before any block-terminating line), processes a five-field row at vdev
depth (padding delta 2, outside spares context) or at disk depth (padding
delta at least 4) and a read, write or checksum field of the row is not a
parseable integer, the whole parse fails with an error and no record list
at all, whatever was already accumulated or still follows; zero is never
substituted for the malformed field. -/
theorem parseInside_malformed_fails : ∀ (line : String) (rest : List String) (minPad : Nat)
    (zpool vdev f0 f1 f2 f3 f4 : String),
    goFields line = [f0, f1, f2, f3, f4] →
    ((leadingSpaces line - minPad = 2 ∧ minPad ≤ leadingSpaces line ∧ zpool ≠ "spares") ∨
     (4 ≤ leadingSpaces line - minPad ∧ minPad ≤ leadingSpaces line)) →
    (goAtoi f2 = none ∨ goAtoi f3 = none ∨ goAtoi f4 = none) →
    parseInside (line :: rest) minPad zpool vdev = none := by
  intro line rest minPad zpool vdev f0 f1 f2 f3 f4 hf hd hbad
  have hstep : lineStep minPad zpool vdev line = .failLine := by
    unfold lineStep
    rcases hd with ⟨h2, hle, hsp⟩ | ⟨h4, hle⟩
    · rw [if_pos hle, if_neg (by omega), if_pos h2, if_neg hsp, hf]
      show (match goAtoi f2, goAtoi f3, goAtoi f4 with
        | some re, some we, some ce =>
          LineAction.emit ⟨zpool, f0, f0, "vdev", f1, re, we, ce⟩ zpool f0
        | _, _, _ => LineAction.failLine) = LineAction.failLine
      rcases hbad with hb | hb | hb
      · rw [hb]
      · cases hc : goAtoi f2
        · rfl
        · rw [hb]
      · cases hc : goAtoi f2
        · rfl
        · cases hc3 : goAtoi f3
          · rfl
          · rw [hb]
    · rw [if_pos hle, if_neg (by omega), if_neg (by omega), if_pos h4, hf]
      show (match goAtoi f2, goAtoi f3, goAtoi f4 with
        | some re, some we, some ce =>
          LineAction.emit ⟨zpool, vdev, f0, "disk", f1, re, we, ce⟩ zpool vdev
        | _, _, _ => LineAction.failLine) = LineAction.failLine
      rcases hbad with hb | hb | hb
      · rw [hb]
      · cases hc : goAtoi f2
        · rfl
        · rw [hb]
      · cases hc : goAtoi f2
        · rfl
        · cases hc3 : goAtoi f3
          · rfl
          · rw [hb]
  unfold parseInside
  rw [hstep]

/-- Claim C8 (amended): inside the topology block a blank line of only
spaces whose padding is at least minPadding has zero fields and is
skipped without touching the context or the records, while a line with
less padding than the header (a fully empty line included) terminates the
block: the records already emitted are returned unchanged, but later rows
are no longer parsed. -/
theorem parseInside_blank_behavior : ∀ (line : String) (rest : List String) (minPad : Nat)
    (zpool vdev : String),
    (minPad ≤ leadingSpaces line → goFields line = [] →
      parseInside (line :: rest) minPad zpool vdev = parseInside rest minPad zpool vdev) ∧
    (leadingSpaces line < minPad →
      parseInside (line :: rest) minPad zpool vdev = some []) := by
  intro line rest minPad zpool vdev
  constructor
  · intro hle hf
    have hstep : lineStep minPad zpool vdev line = .skip zpool vdev := by
      unfold lineStep
      rw [if_pos hle]
      by_cases h0 : leadingSpaces line - minPad = 0
      · rw [if_pos h0, hf]
      · rw [if_neg h0]
        by_cases h2 : leadingSpaces line - minPad = 2
        · rw [if_pos h2]
          by_cases hsp : zpool = "spares"
          · rw [if_pos hsp, hf]
          · rw [if_neg hsp, hf]
        · rw [if_neg h2]
          by_cases h4 : 4 ≤ leadingSpaces line - minPad
          · rw [if_pos h4, hf]
          · rw [if_neg h4]
    have hcons : parseInside (line :: rest) minPad zpool vdev =
        match lineStep minPad zpool vdev line with
        | LineAction.stop => some []
        | LineAction.skip z v => parseInside rest minPad z v
        | LineAction.emit d z v => (parseInside rest minPad z v).map (fun t => d :: t)
        | LineAction.failLine => none := rfl
    rw [hcons, hstep]
  · intro hlt
    have hstep : lineStep minPad zpool vdev line = .stop := by
      unfold lineStep
      rw [if_neg (by omega)]
    unfold parseInside
    rw [hstep]

/-- One status metric is published per record. -/
theorem filter_status_len : ∀ disks : List PoolDisk,
    ((poolDiskCollectorUpdate disks).filter (fun m => m.name = "zfs_disk_status")).length =
      disks.length := by
  intro disks
  induction disks with
  | nil => rfl
  | cons d rest ih =>
    by_cases h : d.Kind = "spare" <;>
      simp [poolDiskCollectorUpdate, metricsForDisk, List.filter_append, h, ih]

/-- One read-error metric is published per record that is not a spare. -/
theorem filter_read_len : ∀ disks : List PoolDisk,
    ((poolDiskCollectorUpdate disks).filter (fun m => m.name = "zfs_disk_read_error")).length =
      (disks.filter (fun d => d.Kind ≠ "spare")).length := by
  intro disks
  induction disks with
  | nil => rfl
  | cons d rest ih =>
    by_cases h : d.Kind = "spare" <;>
      simp [poolDiskCollectorUpdate, metricsForDisk, List.filter_append, h, ih, List.filter_cons]

/-- One write-error metric is published per record that is not a spare. -/
theorem filter_write_len : ∀ disks : List PoolDisk,
    ((poolDiskCollectorUpdate disks).filter (fun m => m.name = "zfs_disk_write_error")).length =
      (disks.filter (fun d => d.Kind ≠ "spare")).length := by
  intro disks
  induction disks with
  | nil => rfl
  | cons d rest ih =>
    by_cases h : d.Kind = "spare" <;>
      simp [poolDiskCollectorUpdate, metricsForDisk, List.filter_append, h, ih, List.filter_cons]

/-- One checksum-error metric is published per record that is not a spare. -/
theorem filter_cksum_len : ∀ disks : List PoolDisk,
    ((poolDiskCollectorUpdate disks).filter (fun m => m.name = "zfs_disk_checksum_error")).length =
      (disks.filter (fun d => d.Kind ≠ "spare")).length := by
  intro disks
  induction disks with
  | nil => rfl
  | cons d rest ih =>
    by_cases h : d.Kind = "spare" <;>
      simp [poolDiskCollectorUpdate, metricsForDisk, List.filter_append, h, ih, List.filter_cons]

/-- Every status metric has value 1 and the labels of a source record. -/
theorem mem_status_char : ∀ (disks : List PoolDisk) (m : Metric),
    m ∈ poolDiskCollectorUpdate disks → m.name = "zfs_disk_status" →
    m.value = 1 ∧ ∃ d ∈ disks, m.labels = labelValues d := by
  intro disks
  induction disks with
  | nil => intro m hm; simp [poolDiskCollectorUpdate] at hm
  | cons d rest ih =>
    intro m hm hname
    rcases List.mem_append.mp hm with h1 | h1
    · by_cases h : d.Kind = "spare"
      · simp [metricsForDisk, h] at h1
        subst h1
        exact ⟨rfl, d, List.mem_cons_self d rest, rfl⟩
      · simp [metricsForDisk, h] at h1
        rcases h1 with h1 | h1 | h1 | h1 <;> subst h1
        · exact ⟨rfl, d, List.mem_cons_self d rest, rfl⟩
        · simp at hname
        · simp at hname
        · simp at hname
    · rcases ih m h1 hname with ⟨hv, d', hd', hl⟩
      exact ⟨hv, d', List.mem_cons_of_mem d hd', hl⟩

/-- Every read-error metric carries the read counter and the labels of a
source record that is not a spare. -/
theorem mem_read_char : ∀ (disks : List PoolDisk) (m : Metric),
    m ∈ poolDiskCollectorUpdate disks → m.name = "zfs_disk_read_error" →
    ∃ d ∈ disks, d.Kind ≠ "spare" ∧ m.value = d.ReadErrors ∧ m.labels = labelValues d := by
  intro disks
  induction disks with
  | nil => intro m hm; simp [poolDiskCollectorUpdate] at hm
  | cons d rest ih =>
    intro m hm hname
    rcases List.mem_append.mp hm with h1 | h1
    · by_cases h : d.Kind = "spare"
      · simp [metricsForDisk, h] at h1
        subst h1
        simp at hname
      · simp [metricsForDisk, h] at h1
        rcases h1 with h1 | h1 | h1 | h1 <;> subst h1
        · simp at hname
        · exact ⟨d, List.mem_cons_self d rest, h, rfl, rfl⟩
        · simp at hname
        · simp at hname
    · rcases ih m h1 hname with ⟨d', hd', hs, hv, hl⟩
      exact ⟨d', List.mem_cons_of_mem d hd', hs, hv, hl⟩

/-- Every write-error metric carries the write counter and the labels of a
source record that is not a spare. -/
theorem mem_write_char : ∀ (disks : List PoolDisk) (m : Metric),
    m ∈ poolDiskCollectorUpdate disks → m.name = "zfs_disk_write_error" →
    ∃ d ∈ disks, d.Kind ≠ "spare" ∧ m.value = d.WriteErrors ∧ m.labels = labelValues d := by
  intro disks
  induction disks with
  | nil => intro m hm; simp [poolDiskCollectorUpdate] at hm
  | cons d rest ih =>
    intro m hm hname
    rcases List.mem_append.mp hm with h1 | h1
    · by_cases h : d.Kind = "spare"
      · simp [metricsForDisk, h] at h1
        subst h1
        simp at hname
      · simp [metricsForDisk, h] at h1
        rcases h1 with h1 | h1 | h1 | h1 <;> subst h1
        · simp at hname
        · simp at hname
        · exact ⟨d, List.mem_cons_self d rest, h, rfl, rfl⟩
        · simp at hname
    · rcases ih m h1 hname with ⟨d', hd', hs, hv, hl⟩
      exact ⟨d', List.mem_cons_of_mem d hd', hs, hv, hl⟩

/-- Every checksum-error metric carries the checksum counter and the labels
of a source record that is not a spare. -/
theorem mem_cksum_char : ∀ (disks : List PoolDisk) (m : Metric),
    m ∈ poolDiskCollectorUpdate disks → m.name = "zfs_disk_checksum_error" →
    ∃ d ∈ disks, d.Kind ≠ "spare" ∧ m.value = d.ChecksumErrors ∧ m.labels = labelValues d := by
  intro disks
  induction disks with
  | nil => intro m hm; simp [poolDiskCollectorUpdate] at hm
  | cons d rest ih =>
    intro m hm hname
    rcases List.mem_append.mp hm with h1 | h1
    · by_cases h : d.Kind = "spare"
      · simp [metricsForDisk, h] at h1
        subst h1
        simp at hname
      · simp [metricsForDisk, h] at h1
        rcases h1 with h1 | h1 | h1 | h1 <;> subst h1
        · simp at hname
        · simp at hname
        · simp at hname
        · exact ⟨d, List.mem_cons_self d rest, h, rfl, rfl⟩
    · rcases ih m h1 hname with ⟨d', hd', hs, hv, hl⟩
      exact ⟨d', List.mem_cons_of_mem d hd', hs, hv, hl⟩

/-- Claim C1: on the known-format sample report of pool ssd_tank with four
mirrors of two disks each plus spare sdj, parsePoolDisksFromLines returns
exactly the thirteen records of the repository test: four vdev, eight disk
and one spare record; the mirror-0 record carries the literal error counts
1, 14 and 27 of its row, and the sdj record has zero error counts and
state AVAIL. -/
theorem claim_c1_sample_scenario :
    parsePoolDisksFromLines sampleLines = some sampleExpected ∧
    sampleExpected.length = 13 ∧
    (sampleExpected.filter (fun r => r.Kind = "vdev")).length = 4 ∧
    (sampleExpected.filter (fun r => r.Kind = "disk")).length = 8 ∧
    (sampleExpected.filter (fun r => r.Kind = "spare")).length = 1 ∧
    sampleExpected.filter (fun r => r.Name = "mirror-0") =
      [⟨"ssd_tank", "mirror-0", "mirror-0", "vdev", "ONLINE", 1, 14, 27⟩] ∧
    sampleExpected.filter (fun r => r.Name = "sdj") =
      [⟨"spares", "", "sdj", "spare", "AVAIL", 0, 0, 0⟩] := by decide

/-- Claim C2, witness: a concrete malformed vdev row processed inside the
block fails the parse with no records. -/
theorem claim_c2_witness : parseInside ["  bad ONLINE x 0 0"] 0 "t" "" = none :=
  parseInside_malformed_fails "  bad ONLINE x 0 0" [] 0 "t" "" "bad" "ONLINE" "x" "0" "0"
    (by decide) (Or.inl ⟨by decide, by decide, by decide⟩) (Or.inl (by decide))

/-- Claim C2, counterexample to the unamended claim: a malformed five-field
row at vdev depth after the detected header, outside any spares context, is
never reached when an earlier line with padding below the header padding
has already terminated the block, so the parse succeeds with no error. -/
theorem claim_c2_counterexample :
    parsePoolDisksFromLines [" NAME STATE CKSUM", "end", "   bad ONLINE x 0 0"] = some [] ∧
    containsNSC " NAME STATE CKSUM" = true ∧
    leadingSpaces "   bad ONLINE x 0 0" - leadingSpaces " NAME STATE CKSUM" = 2 ∧
    goFields "   bad ONLINE x 0 0" = ["bad", "ONLINE", "x", "0", "0"] ∧
    goAtoi "x" = none := by decide

/-- Claim C3 (amended): in every record list the parser accepts, every disk
record points at the name of a vdev record emitted earlier in the output,
or carries the empty vdev left from the initial context (a disk row before
any vdev row); the earlier vdev record need not belong to the same pool,
because the vdev context is not reset at pool-level rows. -/
theorem claim_c3_disk_vdev_link : ∀ (lines : List String) (res : List PoolDisk),
    parsePoolDisksFromLines lines = some res → disksLinked res [] = true :=
  fun lines res h => parseSeek_linked lines res h

/-- Claim C3, witness: the sample output satisfies the link check. -/
theorem claim_c3_witness : disksLinked sampleExpected [] = true :=
  claim_c3_disk_vdev_link sampleLines sampleExpected (by decide)

/-- Claim C3, counterexample to the unamended claim: a disk row before any
vdev row yields a disk record with empty vdev and no vdev record at all,
and a disk row of a second pool can point at the first pool's vdev record,
since currentVdev is not reset at pool-level rows. -/
theorem claim_c3_counterexample :
    parsePoolDisksFromLines ["NAME STATE CKSUM", "t ONLINE 0 0 0", "    sda ONLINE 0 0 0"] =
      some [⟨"t", "", "sda", "disk", "ONLINE", 0, 0, 0⟩] ∧
    parsePoolDisksFromLines ["NAME STATE CKSUM", "t1 ONLINE 0 0 0", "  m1 ONLINE 0 0 0",
        "t2 ONLINE 0 0 0", "    sdx ONLINE 0 0 0"] =
      some [⟨"t1", "m1", "m1", "vdev", "ONLINE", 0, 0, 0⟩,
            ⟨"t2", "m1", "sdx", "disk", "ONLINE", 0, 0, 0⟩] := by decide

/-- Claim C4: when the property loop of updatePoolMetrics meets a key the
property store does not register, the key is recorded as a warning and
skipped: nothing is published for it, the cycle is not aborted, and the
remaining keys are collected and published exactly as they would be
without the unsupported key. -/
theorem claim_c4_unsupported_property : ∀ (reg : String → Bool)
    (transform : String → String → Option Int) (k v : String)
    (rest : List (String × String)) (st : ScrapeState), reg k = false →
    updatePoolMetrics reg transform ((k, v) :: rest) st =
      updatePoolMetrics reg transform rest ⟨st.warnings ++ [k], st.published⟩ := by
  intro reg transform k v rest st hreg
  simp [updatePoolMetrics, hreg]

/-- Claim C4, witness: a concrete unsupported key is warned about and
skipped while the following registered key is still processed. -/
theorem claim_c4_witness :
    updatePoolMetrics (fun k => k == "size") (fun _ _ => some 0)
      [("foo", "1"), ("size", "5")] ⟨[], []⟩ =
    updatePoolMetrics (fun k => k == "size") (fun _ _ => some 0)
      [("size", "5")] ⟨["foo"], []⟩ :=
  claim_c4_unsupported_property (fun k => k == "size") (fun _ _ => some 0)
    "foo" "1" [("size", "5")] ⟨[], []⟩ (by decide)

/-- Claim C5: for every record list from the topology source, the disk
collector publishes exactly one status metric of value 1 per record and
exactly one read, one write and one checksum error metric per record whose
kind is not spare, each carrying that record's counter and the labels
zpool, vdev, state, kind, name; for spare records the three error metrics
are omitted. -/
theorem claim_c5_disk_collector : ∀ disks : List PoolDisk,
    ((poolDiskCollectorUpdate disks).filter (fun m => m.name = "zfs_disk_status")).length =
      disks.length ∧
    (∀ m ∈ poolDiskCollectorUpdate disks, m.name = "zfs_disk_status" →
      m.value = 1 ∧ ∃ d ∈ disks, m.labels = labelValues d) ∧
    ((poolDiskCollectorUpdate disks).filter (fun m => m.name = "zfs_disk_read_error")).length =
      (disks.filter (fun d => d.Kind ≠ "spare")).length ∧
    ((poolDiskCollectorUpdate disks).filter (fun m => m.name = "zfs_disk_write_error")).length =
      (disks.filter (fun d => d.Kind ≠ "spare")).length ∧
    ((poolDiskCollectorUpdate disks).filter (fun m => m.name = "zfs_disk_checksum_error")).length =
      (disks.filter (fun d => d.Kind ≠ "spare")).length ∧
    (∀ m ∈ poolDiskCollectorUpdate disks, m.name = "zfs_disk_read_error" →
      ∃ d ∈ disks, d.Kind ≠ "spare" ∧ m.value = d.ReadErrors ∧ m.labels = labelValues d) ∧
    (∀ m ∈ poolDiskCollectorUpdate disks, m.name = "zfs_disk_write_error" →
      ∃ d ∈ disks, d.Kind ≠ "spare" ∧ m.value = d.WriteErrors ∧ m.labels = labelValues d) ∧
    (∀ m ∈ poolDiskCollectorUpdate disks, m.name = "zfs_disk_checksum_error" →
      ∃ d ∈ disks, d.Kind ≠ "spare" ∧ m.value = d.ChecksumErrors ∧ m.labels = labelValues d) :=
  fun disks =>
    ⟨filter_status_len disks, mem_status_char disks, filter_read_len disks,
     filter_write_len disks, filter_cksum_len disks, mem_read_char disks,
     mem_write_char disks, mem_cksum_char disks⟩

/-- Claim C6 (amended): in every record list the parser accepts, every
record of kind spare has all three error counters equal to zero; the error
counters of vdev and disk records are the Atoi values of their fields and
can be negative when a field carries a minus sign, so they are not
non-negative on all accepted inputs. -/
theorem claim_c6_spare_zero : ∀ (lines : List String) (res : List PoolDisk),
    parsePoolDisksFromLines lines = some res → ∀ r ∈ res, r.Kind = "spare" →
      r.ReadErrors = 0 ∧ r.WriteErrors = 0 ∧ r.ChecksumErrors = 0 :=
  fun lines res h r hr hk =>
    ⟨(parseSeek_spare lines res h r hr hk).2.1,
     (parseSeek_spare lines res h r hr hk).2.2.1,
     (parseSeek_spare lines res h r hr hk).2.2.2⟩

/-- Claim C6, witness: the sample spare record sdj has zero counters. -/
theorem claim_c6_witness :
    (⟨"spares", "", "sdj", "spare", "AVAIL", 0, 0, 0⟩ : PoolDisk).ReadErrors = 0 ∧
    (⟨"spares", "", "sdj", "spare", "AVAIL", 0, 0, 0⟩ : PoolDisk).WriteErrors = 0 ∧
    (⟨"spares", "", "sdj", "spare", "AVAIL", 0, 0, 0⟩ : PoolDisk).ChecksumErrors = 0 :=
  claim_c6_spare_zero sampleLines sampleExpected (by decide)
    ⟨"spares", "", "sdj", "spare", "AVAIL", 0, 0, 0⟩ (by decide) rfl

/-- Claim C6, counterexample to the unamended claim: a vdev row whose read
field is -1 is accepted by strconv.Atoi, so the parse succeeds and emits a
record with a negative read-error counter. -/
theorem claim_c6_counterexample :
    parsePoolDisksFromLines ["NAME STATE CKSUM", "t ONLINE 0 0 0", "  m ONLINE -1 0 0"] =
      some [⟨"t", "m", "m", "vdev", "ONLINE", -1, 0, 0⟩] ∧
    ((-1 : Int) < 0) := by decide

/-- Claim C7: parsing the same input twice yields identical results, the
same error outcome and on success equal record sequences, because the
parser is a pure function of its input lines. -/
theorem claim_c7_idempotent : ∀ lines : List String,
    parsePoolDisksFromLines lines = parsePoolDisksFromLines lines ∧
    ∀ res res2 : List PoolDisk, parsePoolDisksFromLines lines = some res →
      parsePoolDisksFromLines lines = some res2 → res = res2 :=
  fun _ => ⟨rfl, fun _ _ h1 h2 => Option.some.inj (h1.symm.trans h2)⟩

/-- Claim C8, counterexample to the unamended claim: inserting one fully
empty line in front of a well-formed vdev row terminates the topology
block, so the record of that row is lost and the output is not unaffected
by the blank line. -/
theorem claim_c8_counterexample :
    parsePoolDisksFromLines ["  NAME STATE CKSUM", "  t ONLINE 0 0 0", "    m ONLINE 1 2 3"] =
      some [⟨"t", "m", "m", "vdev", "ONLINE", 1, 2, 3⟩] ∧
    parsePoolDisksFromLines ["  NAME STATE CKSUM", "  t ONLINE 0 0 0", "",
        "    m ONLINE 1 2 3"] = some [] := by decide

/-- Claim C9 (amended): every spare record carries the literal pool name
spares, and once the pool context is a nonempty string every record the
inside loop emits carries a nonempty pool name; but a vdev or disk row
processed before any pool-level row is emitted with the empty initial pool
context, so not every record of every accepted input has a nonempty pool
field. -/
theorem claim_c9_pool_field :
    (∀ (lines : List String) (res : List PoolDisk), parsePoolDisksFromLines lines = some res →
      ∀ r ∈ res, r.Kind = "spare" → r.Zpool = "spares") ∧
    (∀ (lines : List String) (minPad : Nat) (zpool vdev : String) (res : List PoolDisk),
      zpool ≠ "" → parseInside lines minPad zpool vdev = some res →
      ∀ r ∈ res, r.Zpool ≠ "") :=
  ⟨fun lines res h r hr hk => (parseSeek_spare lines res h r hr hk).1,
   fun lines minPad zpool vdev res hz h r hr =>
     parseInside_zpool lines minPad zpool vdev res h hz r hr⟩

/-- Claim C9, counterexample to the unamended claim: a vdev row directly
after the header, before any pool-level row, is emitted with an empty pool
field. -/
theorem claim_c9_counterexample :
    parsePoolDisksFromLines ["NAME STATE CKSUM", "  m ONLINE 0 0 0"] =
      some [⟨"", "m", "m", "vdev", "ONLINE", 0, 0, 0⟩] ∧
    (⟨"", "m", "m", "vdev", "ONLINE", 0, 0, 0⟩ : PoolDisk).Zpool = "" := by decide

/-- Claim C10: when no line of the input contains all three markers NAME,
STATE and CKSUM, the parser returns the empty record list and no error. -/
theorem claim_c10_no_header : ∀ lines : List String,
    (∀ l ∈ lines, containsNSC l = false) → parsePoolDisksFromLines lines = some [] := by
  intro lines
  induction lines with
  | nil => intro _; rfl
  | cons line rest ih =>
    intro h
    have hline := h line (List.mem_cons_self line rest)
    show parseSeek (line :: rest) = some []
    unfold parseSeek
    simp only [hline, Bool.false_eq_true, if_false]
    exact ih fun l hl => h l (List.mem_cons_of_mem line hl)

/-- Claim C10, witness: a concrete input without a header line parses to
the empty record list with no error. -/
theorem claim_c10_witness :
    parsePoolDisksFromLines ["pool: tank", "no markers here"] = some [] :=
  claim_c10_no_header ["pool: tank", "no markers here"] (by decide)
